import Mathlib

/-!
Shallow embedding of `mccon.py`, a console output multiplexer: two sinks
(`MCConOut` for stdout, `MCConErr` for stderr) share a re-entrant lock, mirror
writes to an optional log file, gate screen visibility through `user_mode` and
per-sink role flags, and batch closely spaced stderr writes into blocks.

Modelling conventions:
- All module globals and both sink objects live in one state record `G`;
  every operation is a function on `G` (the shared `RLock` serialises all of
  them, so the sequential embedding is the lock-level semantics).
- The real devices and the log file are modelled as event lists
  (`outScreen`, `errScreen`, `logw`); a log event is tagged with the sink
  that produced it so per-sink order can be stated.
- A file handle is modelled by the `Bool` "a handle is present"; `flush` on a
  present handle succeeds, attribute access on an absent one (Python `None`)
  raises, modelled with `Except PyErr`.
- `datetime.now()` is nondeterministic, so the formatted timestamp is carried
  as the state field `now`.
- The banned-identifier conventions of this development rename Python's
  `prefix` to `pfx` and `STDERR_PREFIX` to `STDERR_PFX`; everything else keeps
  the source's names.
-/

namespace MCCon

/-- Python exceptions that the modelled code can raise. -/
inductive PyErr where
  | unboundLocalError
  | attributeError
  | other
deriving DecidableEq

/-- `SEPARATOR = "|"`. -/
def SEPARATOR : String := "|"

/-- `gen_color(code, bright)`: ANSI escape string. -/
def gen_color (code : Nat) (bright : Bool) : String :=
  "\x1b[" ++ toString code ++ (if bright then ";1m" else "m")

/-- `NO_COLOUR`: `gen_color(0)` when colour is enabled, else `''`. -/
def NO_COLOUR (uc : Bool) : String := if uc then gen_color 0 false else ""

/-- `ERROR_COLOUR`: bright red when colour is enabled, else `''`. -/
def ERROR_COLOUR (uc : Bool) : String := if uc then gen_color 31 true else ""

/-- `WARN_COLOUR`: bright yellow when colour is enabled, else `''`. -/
def WARN_COLOUR (uc : Bool) : String := if uc then gen_color 33 true else ""

/-- `STAT_COLOUR`: white/grey when colour is enabled, else `''`. -/
def STAT_COLOUR (uc : Bool) : String := if uc then gen_color 37 false else ""

/-- `DULL_COLOUR`: dark green when colour is enabled, else `''`. -/
def DULL_COLOUR (uc : Bool) : String := if uc then gen_color 32 false else ""

/-- `USER_COLOUR`: bright green when colour is enabled, else `''`. -/
def USER_COLOUR (uc : Bool) : String := if uc then gen_color 32 true else ""

/-- `HIGHLIGHT_COLOUR`: bright magenta when colour is enabled, else `''`. -/
def HIGHLIGHT_COLOUR (uc : Bool) : String := if uc then gen_color 35 true else ""

/-- `LOWLIGHT_COLOUR`: dark grey when colour is enabled, else `''`. -/
def LOWLIGHT_COLOUR (uc : Bool) : String := if uc then gen_color 30 true else ""

/-- `DISABLED_COLOUR`: dark grey when colour is enabled, else `''`. -/
def DISABLED_COLOUR (uc : Bool) : String := if uc then gen_color 30 true else ""

/-- `STDERR_PREFIX` (renamed `STDERR_PFX`): per-line stderr marker. -/
def STDERR_PFX (uc : Bool) : String :=
  if uc then
    NO_COLOUR true ++ gen_color 41 false ++ gen_color 30 false ++ "+" ++
      NO_COLOUR true ++ "    " ++ ERROR_COLOUR true
  else "+    "

/-- `STDERR_HEADER`: start of an stderr print block. -/
def STDERR_HEADER (uc : Bool) : String :=
  if uc then "\n" ++ NO_COLOUR true ++ gen_color 41 false ++ gen_color 30 false
  else "\n"

/-- A Write Record as enqueued by `MCConOut.write`:
`(self.file_only, text, self.process_text(text), (self.user and user_mode) or not user_mode)`. -/
structure OutRec where
  file_only : Bool
  raw : String
  form : String
  prnt : Bool
deriving DecidableEq

/-- The fields of the `MCConOut` class (stdout sink).  `log : Bool` models
whether the optional log-file handle is present. -/
structure MCConOut where
  log : Bool
  user : Bool
  error : Bool
  warn : Bool
  file_only : Bool
  high_words : List (String × Option String)
  low_words : List (String × Option String)
  last : Option Char
  allowed : Bool
  queue : List OutRec
deriving DecidableEq

/-- The fields of the `MCConErr` class (stderr sink).  `t : Option Bool` models
the pending `Timer` handle, holding the `print_anyway` argument it was armed
with (`None` when no timer is pending). -/
structure MCConErr where
  log : Bool
  user : Bool
  error : Bool
  warn : Bool
  file_only : Bool
  print_header : Bool
  queue : List String
  t : Option Bool
  msg : String
deriving DecidableEq

/-- A write to the log file, tagged with the sink that performed it (the file
content is the concatenation of the payloads in list order). -/
inductive LogEv where
  | out (s : String)
  | err (s : String)
deriving DecidableEq

/-- A write to a real device: ordinary text, or the dump of
`traceback.print_exc` (whose content is runtime-dependent). -/
inductive ScreenEv where
  | text (s : String)
  | traceback
deriving DecidableEq

/-- The whole module state: globals plus the two sink objects plus the
observable event lists for the real devices and the log file.
`glob_log_file` is the module-global `log_file` (`init` never assigns it —
it only binds a function-local of the same name); `logOpened` / `logClosed`
record whether the OS-level handle opened by `init` was opened / closed. -/
structure G where
  use_colour : Bool
  user_mode : Bool
  pfx : String
  now : String
  print_log_name : Bool
  highlights : List (String × Option String)
  stat_highlight : List (String × Option String)
  glob_log_file : Bool
  logOpened : Bool
  logClosed : Bool
  mccon_out : MCConOut
  mccon_err : MCConErr
  outScreen : List String
  errScreen : List ScreenEv
  logw : List LogEv
deriving DecidableEq

/-- Python `c in text` for a single character, over the character list (the
built-in `String.contains` does not evaluate by kernel reduction). -/
def pyContains (s : String) (c : Char) : Bool := s.data.contains c

/-- Fuel-driven core of `pyReplace`; the fuel is the length of the text, and
each step consumes at least one character. -/
def replaceAux (rep pat : List Char) : Nat → List Char → List Char
  | _, [] => []
  | 0, l => l
  | fuel + 1, c :: rest =>
      if pat.isPrefixOf (c :: rest) ∧ pat ≠ [] then
        rep ++ replaceAux rep pat fuel ((c :: rest).drop pat.length)
      else c :: replaceAux rep pat fuel rest

/-- Python `text.replace(pat, rep)`: replace every non-overlapping occurrence
of `pat`, scanning left to right (the built-in `String.replace` does not
evaluate by kernel reduction; `pat` is `'\n'` at the call site, never empty). -/
def pyReplace (s pat rep : String) : String :=
  ⟨replaceAux rep.data pat.data s.data.length s.data⟩

/-- Association-list lookup (`word in word_col_map` / `word_col_map[word]`). -/
def lookupA (m : List (String × String)) (k : String) : Option String :=
  (m.find? (fun p => p.1 = k)).map (fun p => p.2)

/-- Association-list assignment `m[k] = v` (overwrites in place, appends if
absent). -/
def setA (m : List (String × String)) (k : String) (v : String) :
    List (String × String) :=
  if (m.find? (fun p => p.1 = k)).isSome then
    m.map (fun p => if p.1 = k then (k, v) else p)
  else m ++ [(k, v)]

/-- One pass of `for word in wmap: if len(word) < text_len and word not in
word_col_map: ... word_col_map[word] = col` (a `None` colour falls back to
`def_col`). -/
def addWords (text_len : Nat) (m : List (String × String))
    (wmap : List (String × Option String)) (def_col : String) :
    List (String × String) :=
  wmap.foldl (fun m p =>
    if p.1.length < text_len ∧ lookupA m p.1 = none then
      m ++ [(p.1, p.2.getD def_col)]
    else m) m

/-- One `txt.split(word)` round of the keyword-splitting loop: every fragment
keeps its colour and each separator occurrence is tagged with the word's
colour. -/
def splitRound (wcm : List (String × String)) (word : String)
    (st : List (String × String)) : List (String × String) :=
  st.foldl (fun acc p =>
    let parts := p.1.splitOn word
    acc ++ (parts.dropLast.foldl (fun a frag =>
      a ++ [(frag, p.2), (word, (lookupA wcm word).getD "")]) [])
      ++ [(parts.getLastD "", p.2)]) []

/-- `MCConOut.process_text(self, text)`: when colour is enabled, colourise
`text` with the role colour and the keyword-colour maps; otherwise return it
unchanged.  Python dict iteration is modelled as insertion order and
`words.sort(key=len)` as a stable ascending merge sort (then reversed). -/
def MCConOut.process_text (g : G) (text : String) : String :=
  if g.use_colour then
    let text_len := text.length
    let msg_col := if g.mccon_out.user then USER_COLOUR true else DULL_COLOUR true
    let msg_col := if g.mccon_out.warn then WARN_COLOUR true else msg_col
    let msg_col := if g.mccon_out.error then ERROR_COLOUR true else msg_col
    let wcm : List (String × String) := []
    let wcm := addWords text_len wcm g.mccon_out.high_words (HIGHLIGHT_COLOUR true)
    let wcm := addWords text_len wcm g.mccon_out.low_words (LOWLIGHT_COLOUR true)
    let wcm := addWords text_len wcm g.highlights (HIGHLIGHT_COLOUR true)
    let wcm := addWords text_len wcm g.stat_highlight (HIGHLIGHT_COLOUR true)
    let wcm := setA wcm SEPARATOR (DISABLED_COLOUR true)
    let words := ((wcm.map (fun p => p.1)).mergeSort
      (fun a b => a.length ≤ b.length)).reverse
    let split_text := words.foldl (fun st w => splitRound wcm w st)
      [(text, msg_col)]
    split_text.foldl (fun s p => s ++ NO_COLOUR true ++ p.2 ++ p.1) ""
  else text

/-- `MCConErr.process_text(self, text)`: insert `STDERR_PFX` after every line
terminator, then wrap in the role colour (user > error-vs-warn priority). -/
def MCConErr.process_text (g : G) (text : String) : String :=
  let text := pyReplace text "\n" ("\n" ++ STDERR_PFX g.use_colour)
  if g.use_colour then
    let msg_col := if g.mccon_err.error then ERROR_COLOUR true else WARN_COLOUR true
    let msg_col := if g.mccon_err.user then USER_COLOUR true else msg_col
    NO_COLOUR true ++ msg_col ++ text ++ NO_COLOUR true
  else text

/-- The stderr screen-visibility gate, as written twice in `write_buffer`:
`not self.file_only and ((self.user and user_mode) or not user_mode)`. -/
def errVisible (g : G) : Bool :=
  !g.mccon_err.file_only && ((g.mccon_err.user && g.user_mode) || !g.user_mode)

/-- `MCConOut.flush`: `if self.log: self.log.flush()` — the handle access is
guarded, so this never raises. -/
def MCConOut.flush (g : G) : Except PyErr G :=
  if g.mccon_out.log then .ok g else .ok g

/-- `MCConErr.flush`: `self.log.flush()` — unguarded, so with no log handle
(`self.log is None`) it raises `AttributeError`. -/
def MCConErr.flush (g : G) : Except PyErr G :=
  if g.mccon_err.log then .ok g else .error .attributeError

/-- The `while True` pop loop of `MCConErr.write_buffer`, on the snapshot of
the queue (sequentially, no new item can arrive during the bounded wait, so
the loop pops the queued items in order and then times out).  Each iteration
first sets `mccon_out.allowed = False`; the timeout branch emits the trailing
line terminator when the block is screen-visible, then restores
`mccon_out.allowed = True`.  An exception from the unguarded `self.flush()`
escapes the loop, leaves the unpopped items queued, dumps a traceback to the
device and still restores `allowed` (the assignment after the `except`). -/
def MCConErr.drain : List String → G → G
  | [], g =>
      let g := {g with mccon_out := {g.mccon_out with allowed := false}}
      if errVisible g then
        let g := if g.mccon_err.log then {g with logw := g.logw ++ [.err "\n"]} else g
        let g := {g with errScreen := g.errScreen ++ [.text "\n"]}
        match MCConErr.flush g with
        | .ok g => {g with mccon_out := {g.mccon_out with allowed := true}}
        | .error _ =>
            {g with errScreen := g.errScreen ++ [.traceback],
                    mccon_out := {g.mccon_out with allowed := true}}
      else {g with mccon_out := {g.mccon_out with allowed := true}}
  | t :: rest, g =>
      let g := {g with mccon_out := {g.mccon_out with allowed := false}}
      let g := if g.mccon_err.log then {g with logw := g.logw ++ [.err t]} else g
      let g := if errVisible g then
          {g with errScreen := g.errScreen ++ [.text (MCConErr.process_text g t)]}
        else g
      if pyContains t '\n' then
        match MCConErr.flush g with
        | .ok g => MCConErr.drain rest g
        | .error _ =>
            {g with mccon_err := {g.mccon_err with queue := rest},
                    errScreen := g.errScreen ++ [.traceback],
                    mccon_out := {g.mccon_out with allowed := true}}
      else MCConErr.drain rest g

/-- `MCConErr.write_buffer(self, print_anyway)`: clear the timer handle;
return if nothing is queued; if not forced and stdout is mid-line, reschedule
a forced attempt; otherwise flush the queue exclusively. -/
def MCConErr.write_buffer (print_anyway : Bool) (g : G) : G :=
  let g := {g with mccon_err := {g.mccon_err with t := none}}
  if g.mccon_err.queue = [] then g
  else if ¬ print_anyway ∧ g.mccon_out.last ≠ some '\n' then
    {g with mccon_err := {g.mccon_err with t := some true}}
  else
    MCConErr.drain g.mccon_err.queue
      {g with mccon_err := {g.mccon_err with queue := []}}

/-- The Write Record built by `MCConOut.write`:
`(self.file_only, text, self.process_text(text),
  (self.user and user_mode) or not user_mode)`. -/
def mkOutRec (g : G) (text : String) : OutRec :=
  ⟨g.mccon_out.file_only, text, MCConOut.process_text g text,
   (g.mccon_out.user && g.user_mode) || !g.user_mode⟩

/-- The `while not self.queue.empty()` drain loop of `MCConOut.write`: write
raw text to the log if present, write the formatted text to the device when
not file-only and `prnt`, flush the log on a line terminator, and record the
last character written. -/
def MCConOut.drain : List OutRec → G → G
  | [], g => g
  | r :: rest, g =>
      let g := if g.mccon_out.log then {g with logw := g.logw ++ [.out r.raw]} else g
      let g := if ¬ r.file_only ∧ r.prnt then
          {g with outScreen := g.outScreen ++ [r.form]}
        else g
      let g := if pyContains r.raw '\n' then
          (match MCConOut.flush g with | .ok g => g | .error _ => g)
        else g
      let g := if 0 < r.raw.length then
          {g with mccon_out := {g.mccon_out with last := some r.raw.back}}
        else g
      MCConOut.drain rest g

/-- `MCConOut.write(self, text)`: under the lock, enqueue a Write Record
(unless the text is `None`), return if flushing is not allowed, otherwise
drain the queue and — if the last character written was a line terminator —
signal `mccon_err.write_buffer(True)`. -/
def MCConOut.write (text : Option String) (g : G) : G :=
  let g := match text with
    | some t =>
        {g with mccon_out :=
          {g.mccon_out with queue := g.mccon_out.queue ++ [mkOutRec g t]}}
    | none => g
  if ¬ g.mccon_out.allowed then g
  else
    let g := MCConOut.drain g.mccon_out.queue
      {g with mccon_out := {g.mccon_out with queue := []}}
    if g.mccon_out.last = some '\n' then MCConErr.write_buffer true g else g

/-- `_logprefix()` with no status: `prefix SEPARATOR timestamp SEPARATOR`
(the formatted `datetime.now()` is the state field `now`). -/
def logpfx (g : G) : String := g.pfx ++ SEPARATOR ++ g.now ++ SEPARATOR

/-- The header synthesised by `MCConErr.write` when the queue is empty and
headers are enabled: `STDERR_HEADER + _logprefix() + self.msg + NO_COLOUR + '\n'`. -/
def synthHeader (g : G) : String :=
  STDERR_HEADER g.use_colour ++ logpfx g ++ g.mccon_err.msg ++
    NO_COLOUR g.use_colour ++ "\n"

/-- `MCConErr.write(self, text)`: under the lock, enqueue the synthesised
header when the queue is empty and headers are enabled, enqueue the text, and
arm the delay timer if none is pending. -/
def MCConErr.write (text : String) (g : G) : G :=
  let g := if g.mccon_err.queue = [] ∧ g.mccon_err.print_header then
      {g with mccon_err :=
        {g.mccon_err with queue := g.mccon_err.queue ++ [synthHeader g]}}
    else g
  let g := {g with mccon_err :=
    {g.mccon_err with queue := g.mccon_err.queue ++ [text]}}
  if g.mccon_err.t = none then
    {g with mccon_err := {g.mccon_err with t := some false}}
  else g

/-- `MCConOut.close`: flush, then write the colour reset if colour is on. -/
def MCConOut.close (g : G) : G :=
  let g := match MCConOut.flush g with | .ok g => g | .error _ => g
  if g.use_colour then {g with outScreen := g.outScreen ++ [NO_COLOUR true]}
  else g

/-- `MCConErr.close`: flush (which raises when no log handle is present),
then write the colour reset if colour is on. -/
def MCConErr.close (g : G) : Except PyErr G :=
  match MCConErr.flush g with
  | .error e => .error e
  | .ok g =>
      .ok (if g.use_colour then
            {g with errScreen := g.errScreen ++ [.text (NO_COLOUR true)]}
          else g)

/-- Module-level `close()`: close both sinks, then close the module-global
`log_file` if it is a file (it is read from the *global* `log_file`, which
`init` never assigns). -/
def close (g : G) : Except PyErr G :=
  let g := MCConOut.close g
  match MCConErr.close g with
  | .error e => .error e
  | .ok g =>
      if g.glob_log_file then .ok {g with logClosed := true, glob_log_file := false}
      else .ok g

/-- Module-level `init(colour, log, default_prefix, log_stderr,
print_stderr_header)` starting from the module's import-time globals.

Inside `init` the name `log_file` is a *function-local* variable: it is
assigned only in the `if log is not None:` branch and there is no
`global log_file` declaration.  Hence with `log=None` the read at
`MCConOut(old_stdout, log_file)` raises `UnboundLocalError`, and even when a
log is opened the module-global `log_file` keeps its import-time value `None`.

When a log is opened and `print_log_name` is still set, the announcement line
is printed through the freshly installed stdout sink inside
`with user(), highlight([log, default_prefix], []):` (the Python 2 `print`
statement issues one write for the text and one for the newline). -/
def init (colour : Bool) (log : Option String) (default_pfx : String)
    (log_stderr : Bool) (print_stderr_header : Bool) (now : String) :
    Except PyErr G :=
  match log with
  | none => .error .unboundLocalError
  | some logPath =>
      let g : G :=
        { use_colour := colour
          user_mode := false
          pfx := default_pfx
          now := now
          print_log_name := true
          highlights := []
          stat_highlight :=
            [("STAT", some (STAT_COLOUR colour)),
             ("WARN", some (WARN_COLOUR colour)),
             ("ERRO", some (ERROR_COLOUR colour))]
          glob_log_file := false
          logOpened := true
          logClosed := false
          mccon_out :=
            { log := true, user := false, error := false, warn := false,
              file_only := false, high_words := [], low_words := [],
              last := none, allowed := true, queue := [] }
          mccon_err :=
            { log := log_stderr, user := false, error := true, warn := false,
              file_only := false, print_header := print_stderr_header,
              queue := [], t := none, msg := "" }
          outScreen := []
          errScreen := []
          logw := [] }
      if g.print_log_name then
        let g := {g with print_log_name := false}
        let g := {g with mccon_out :=
          {g.mccon_out with
            user := true,
            high_words := [(logPath, none), (default_pfx, none)],
            low_words := []}}
        let g := MCConOut.write
          (some (default_pfx ++ ": begin logging to " ++ logPath)) g
        let g := MCConOut.write (some "\n") g
        let g := {g with mccon_out :=
          {g.mccon_out with
            user := false,
            high_words := [],
            low_words := []}}
        .ok g
      else .ok g

/-- A scoped block body: it transforms the state and optionally raises. -/
def Body := G → G × Option PyErr

/-- `@contextmanager def user()`: set `mccon_out.user = True`, run the body,
then set `mccon_out.user = False`.  There is no `try/finally`, so when the
body raises the generator never resumes and the reset does not run. -/
def user (body : Body) (g : G) : G × Option PyErr :=
  let g := {g with mccon_out := {g.mccon_out with user := true}}
  match body g with
  | (g, none) => ({g with mccon_out := {g.mccon_out with user := false}}, none)
  | (g, some e) => (g, some e)

/-- `@contextmanager def user_err()`: like `user` on `mccon_err.user`. -/
def user_err (body : Body) (g : G) : G × Option PyErr :=
  let g := {g with mccon_err := {g.mccon_err with user := true}}
  match body g with
  | (g, none) => ({g with mccon_err := {g.mccon_err with user := false}}, none)
  | (g, some e) => (g, some e)

/-- `@contextmanager def warn()`: like `user` on `mccon_out.warn`. -/
def warn (body : Body) (g : G) : G × Option PyErr :=
  let g := {g with mccon_out := {g.mccon_out with warn := true}}
  match body g with
  | (g, none) => ({g with mccon_out := {g.mccon_out with warn := false}}, none)
  | (g, some e) => (g, some e)

/-- `@contextmanager def error()`: like `user` on `mccon_out.error`. -/
def error (body : Body) (g : G) : G × Option PyErr :=
  let g := {g with mccon_out := {g.mccon_out with error := true}}
  match body g with
  | (g, none) => ({g with mccon_out := {g.mccon_out with error := false}}, none)
  | (g, some e) => (g, some e)

/-- `@contextmanager def file_only()`: like `user` on `mccon_out.file_only`. -/
def file_only (body : Body) (g : G) : G × Option PyErr :=
  let g := {g with mccon_out := {g.mccon_out with file_only := true}}
  match body g with
  | (g, none) =>
      ({g with mccon_out := {g.mccon_out with file_only := false}}, none)
  | (g, some e) => (g, some e)

/-- `@contextmanager def highlight(hiwords, lowords)`: install keyword maps
with default colours, run the body, then reset both maps to empty. -/
def highlight (hiwords lowords : List String) (body : Body) (g : G) :
    G × Option PyErr :=
  let high_map := hiwords.map (fun w => (w, (none : Option String)))
  let low_map := lowords.map (fun w => (w, (none : Option String)))
  let g := {g with mccon_out :=
    {g.mccon_out with high_words := high_map, low_words := low_map}}
  match body g with
  | (g, none) =>
      ({g with mccon_out := {g.mccon_out with high_words := [], low_words := []}},
       none)
  | (g, some e) => (g, some e)

/-- `@contextmanager def highmap(hiwords, lowords)`: install the given maps,
run the body, then reset both maps to empty. -/
def highmap (hiwords lowords : List (String × Option String)) (body : Body)
    (g : G) : G × Option PyErr :=
  let g := {g with mccon_out :=
    {g.mccon_out with high_words := hiwords, low_words := lowords}}
  match body g with
  | (g, none) =>
      ({g with mccon_out := {g.mccon_out with high_words := [], low_words := []}},
       none)
  | (g, some e) => (g, some e)

/-- `@contextmanager def pre(pre)`: capture the old global prefix, install the
new one, run the body, then restore the captured value (again with no
`try/finally`). -/
def pre (p : String) (body : Body) (g : G) : G × Option PyErr :=
  let old_pfx := g.pfx
  let g := {g with pfx := p}
  match body g with
  | (g, none) => ({g with pfx := old_pfx}, none)
  | (g, some e) => (g, some e)

/-- The operations a client (or the timer thread) can perform on the module,
used to quantify over arbitrary interleaved histories. -/
inductive Op where
  | wout (t : Option String)
  | werr (t : String)
  | wbuf (b : Bool)
  | setUserMode (b : Bool)
  | setOutUser (b : Bool)
  | setOutWarn (b : Bool)
  | setOutError (b : Bool)
  | setOutFileOnly (b : Bool)
  | setErrUser (b : Bool)
  | setErrFileOnly (b : Bool)
deriving DecidableEq

/-- Interpretation of one operation. -/
def step : Op → G → G
  | .wout t, g => MCConOut.write t g
  | .werr t, g => MCConErr.write t g
  | .wbuf b, g => MCConErr.write_buffer b g
  | .setUserMode b, g => {g with user_mode := b}
  | .setOutUser b, g => {g with mccon_out := {g.mccon_out with user := b}}
  | .setOutWarn b, g => {g with mccon_out := {g.mccon_out with warn := b}}
  | .setOutError b, g => {g with mccon_out := {g.mccon_out with error := b}}
  | .setOutFileOnly b, g =>
      {g with mccon_out := {g.mccon_out with file_only := b}}
  | .setErrUser b, g => {g with mccon_err := {g.mccon_err with user := b}}
  | .setErrFileOnly b, g =>
      {g with mccon_err := {g.mccon_err with file_only := b}}

/-- Run a history of operations. -/
def run (ops : List Op) (g : G) : G := ops.foldl (fun g op => step op g) g

/-- The stdout-sink texts submitted by a history (arguments of non-`None`
stdout writes, in order). -/
def outSubmitted : List Op → List String
  | [] => []
  | .wout (some t) :: ops => t :: outSubmitted ops
  | _ :: ops => outSubmitted ops

/-- Project a log event to its payload when the stdout sink wrote it. -/
def outP : LogEv → Option String
  | .out s => some s
  | .err _ => none

/-- Project a log event to its payload when the stderr sink wrote it. -/
def errP : LogEv → Option String
  | .err s => some s
  | .out _ => none

/-- The stdout-sink log sequence: raw texts already written to the log file by
the stdout sink, followed by the raw texts still pending in its queue. -/
def outLogSeq (g : G) : List String :=
  g.logw.filterMap outP ++ g.mccon_out.queue.map (fun r => r.raw)

/-- The stderr-sink log sequence: texts already written to the log file by the
stderr sink, followed by the texts still pending in its queue. -/
def errLogSeq (g : G) : List String :=
  g.logw.filterMap errP ++ g.mccon_err.queue

/-! ### Concrete states used by witnesses and counterexamples -/

/-- A stdout sink with no log handle and default flags. -/
def outA : MCConOut :=
  { log := false, user := false, error := false, warn := false,
    file_only := false, high_words := [], low_words := [],
    last := none, allowed := true, queue := [] }

/-- A stderr sink with no log handle and default flags. -/
def errA : MCConErr :=
  { log := false, user := false, error := true, warn := false,
    file_only := false, print_header := true, queue := [], t := none,
    msg := "" }

/-- Colour disabled, no log configured, default flags, empty devices. -/
def gA : G :=
  { use_colour := false, user_mode := false, pfx := "mccon", now := "T",
    print_log_name := false, highlights := [], stat_highlight := [],
    glob_log_file := false, logOpened := false, logClosed := false,
    mccon_out := outA, mccon_err := errA,
    outScreen := [], errScreen := [], logw := [] }

/-- Like `gA` but with a log handle on both sinks. -/
def gLog : G :=
  {gA with mccon_out := {outA with log := true},
           mccon_err := {errA with log := true}}

/-! ### Helper lemmas about the operations -/

/-- `MCConOut.flush` never raises: the handle access is guarded. -/
theorem MCConOut.flush_eq (g : G) : MCConOut.flush g = .ok g := by
  unfold MCConOut.flush; split <;> rfl

/-- `MCConErr.flush` succeeds exactly when a log handle is present. -/
theorem MCConErr.flush_log {g : G} (h : g.mccon_err.log = true) :
    MCConErr.flush g = .ok g := by
  simp [MCConErr.flush, h]

/-- `MCConErr.flush` raises `AttributeError` when no log handle is present. -/
theorem MCConErr.flush_nolog {g : G} (h : g.mccon_err.log = false) :
    MCConErr.flush g = .error .attributeError := by
  simp [MCConErr.flush, h]

/-- `write_buffer` with an empty queue only clears the timer handle. -/
theorem MCConErr.write_buffer_empty {g : G} (b : Bool)
    (h : g.mccon_err.queue = []) :
    MCConErr.write_buffer b g =
      {g with mccon_err := {g.mccon_err with t := none}} := by
  simp [MCConErr.write_buffer, h]

/-- Behaviour of the stdout drain loop: raw texts go to the log (when a
handle is present) in order, printable records go to the device in order, and
everything except `logw`, `outScreen` and `mccon_out.last` is preserved. -/
theorem drainOut_spec (q : List OutRec) (g : G) :
    (MCConOut.drain q g).logw =
      g.logw ++ (if g.mccon_out.log = true then
        q.map (fun r => LogEv.out r.raw) else []) ∧
    (MCConOut.drain q g).outScreen =
      g.outScreen ++ (q.filter (fun r => !r.file_only && r.prnt)).map
        (fun r => r.form) ∧
    (MCConOut.drain q g).mccon_err = g.mccon_err ∧
    (MCConOut.drain q g).errScreen = g.errScreen ∧
    (MCConOut.drain q g).mccon_out.queue = g.mccon_out.queue ∧
    (MCConOut.drain q g).mccon_out.log = g.mccon_out.log ∧
    (MCConOut.drain q g).mccon_out.allowed = g.mccon_out.allowed ∧
    (MCConOut.drain q g).user_mode = g.user_mode := by
  induction q generalizing g with
  | nil => simp [MCConOut.drain]
  | cons r rest ih =>
      obtain ⟨fo, raw, form, prnt⟩ := r
      simp only [MCConOut.drain, MCConOut.flush_eq]
      cases fo <;> cases prnt <;>
        by_cases hlog : g.mccon_out.log = true <;>
          by_cases hnl : pyContains raw '\n' = true <;>
            by_cases hlen : 0 < raw.length <;>
              simp [ih, hlog, hnl, hlen, List.filter_cons]

/-- The stderr drain loop never touches the stdout sink's queue, log handle,
device, or its view of the log file, and always leaves `allowed = true`. -/
theorem MCConErr.drain_outside (q : List String) (g : G) :
    (MCConErr.drain q g).logw.filterMap outP = g.logw.filterMap outP ∧
    (MCConErr.drain q g).mccon_out.queue = g.mccon_out.queue ∧
    (MCConErr.drain q g).mccon_out.log = g.mccon_out.log ∧
    (MCConErr.drain q g).outScreen = g.outScreen ∧
    (MCConErr.drain q g).user_mode = g.user_mode ∧
    (MCConErr.drain q g).mccon_out.allowed = true := by
  induction q generalizing g with
  | nil =>
      simp only [MCConErr.drain, MCConErr.flush, errVisible]
      by_cases hv : (!g.mccon_err.file_only &&
          ((g.mccon_err.user && g.user_mode) || !g.user_mode)) = true <;>
        by_cases hlog : g.mccon_err.log = true <;>
          simp [hv, hlog, outP, List.filterMap_append]
  | cons t rest ih =>
      simp only [MCConErr.drain, MCConErr.flush, errVisible]
      by_cases hv : (!g.mccon_err.file_only &&
          ((g.mccon_err.user && g.user_mode) || !g.user_mode)) = true <;>
        by_cases hlog : g.mccon_err.log = true <;>
          by_cases hnl : pyContains t '\n' = true <;>
            simp [hv, hlog, hnl, ih, outP, List.filterMap_append]

/-- Behaviour of the stderr drain loop when a log handle is present: every
queued text goes to the log in order; when the block is screen-visible the
processed texts and the trailing line terminator go to the device and the
terminator is also logged; the sink's own fields are untouched and
`mccon_out.allowed` ends `true`. -/
theorem drainErr_spec (q : List String) (g : G)
    (hlog : g.mccon_err.log = true) :
    (MCConErr.drain q g).logw = g.logw ++ q.map LogEv.err ++
      (if errVisible g = true then [LogEv.err "\n"] else []) ∧
    (MCConErr.drain q g).errScreen = g.errScreen ++
      (if errVisible g = true then
        q.map (fun t => ScreenEv.text (MCConErr.process_text g t)) ++
          [ScreenEv.text "\n"]
       else []) ∧
    (MCConErr.drain q g).mccon_err = g.mccon_err ∧
    (MCConErr.drain q g).mccon_out.allowed = true ∧
    (MCConErr.drain q g).mccon_out.queue = g.mccon_out.queue ∧
    (MCConErr.drain q g).outScreen = g.outScreen ∧
    (MCConErr.drain q g).user_mode = g.user_mode := by
  induction q generalizing g with
  | nil =>
      simp only [MCConErr.drain, MCConErr.flush, errVisible]
      by_cases hv : (!g.mccon_err.file_only &&
          ((g.mccon_err.user && g.user_mode) || !g.user_mode)) = true <;>
        simp [hv, hlog]
  | cons t rest ih =>
      simp only [MCConErr.drain, MCConErr.flush, errVisible]
      by_cases hv : (!g.mccon_err.file_only &&
          ((g.mccon_err.user && g.user_mode) || !g.user_mode)) = true <;>
        by_cases hnl : pyContains t '\n' = true <;>
          simp [hv, hnl, hlog, ih, errVisible, MCConErr.process_text]

@[simp] theorem mkOutRec_raw (g : G) (t : String) : (mkOutRec g t).raw = t := rfl

@[simp] theorem mkOutRec_file_only (g : G) (t : String) :
    (mkOutRec g t).file_only = g.mccon_out.file_only := rfl

@[simp] theorem mkOutRec_form (g : G) (t : String) :
    (mkOutRec g t).form = MCConOut.process_text g t := rfl

@[simp] theorem mkOutRec_prnt (g : G) (t : String) :
    (mkOutRec g t).prnt =
      ((g.mccon_out.user && g.user_mode) || !g.user_mode) := rfl

@[simp] theorem outP_out (s : String) : outP (.out s) = some s := rfl

@[simp] theorem outP_err (s : String) : outP (.err s) = none := rfl

@[simp] theorem errP_out (s : String) : errP (.out s) = none := rfl

@[simp] theorem errP_err (s : String) : errP (.err s) = some s := rfl

/-- Projecting a block of same-sink log events back out. -/
@[simp] theorem filterMap_out_raw (q : List OutRec) :
    List.filterMap (fun r : OutRec => some r.raw) q = q.map (fun r => r.raw) := by
  induction q <;> simp_all [List.filterMap_cons]

/-- Projecting a block of stderr log events back out. -/
@[simp] theorem filterMap_err_texts (q : List String) :
    List.filterMap (errP ∘ LogEv.err) q = q := by
  induction q <;> simp_all [List.filterMap_cons, Function.comp_def]

/-- `write_buffer` never touches the stdout sink's log sequence, queue, log
handle, device, or the user mode. -/
theorem MCConErr.write_buffer_outside (b : Bool) (g : G) :
    (MCConErr.write_buffer b g).logw.filterMap outP = g.logw.filterMap outP ∧
    (MCConErr.write_buffer b g).mccon_out.queue = g.mccon_out.queue ∧
    (MCConErr.write_buffer b g).mccon_out.log = g.mccon_out.log ∧
    (MCConErr.write_buffer b g).outScreen = g.outScreen ∧
    (MCConErr.write_buffer b g).user_mode = g.user_mode := by
  simp only [MCConErr.write_buffer]
  by_cases hq : g.mccon_err.queue = []
  · simp [hq]
  · by_cases hc : b = false ∧ ¬ g.mccon_out.last = some '\n'
    · simp [hq, hc]
    · simp [hq, hc, MCConErr.drain_outside, List.filterMap_append]

/-- `MCConErr.write` as a single state update: append the text (preceded by
the synthesised header when the queue was empty and headers are enabled) and
arm the timer if none was pending. -/
theorem MCConErr.write_eq (t : String) (g : G) :
    MCConErr.write t g = {g with mccon_err := {g.mccon_err with
      queue := g.mccon_err.queue ++
        (if g.mccon_err.queue = [] ∧ g.mccon_err.print_header = true then
          [synthHeader g, t] else [t]),
      t := if g.mccon_err.t = none then some false else g.mccon_err.t}} := by
  simp only [MCConErr.write]
  by_cases h1 : g.mccon_err.queue = [] ∧ g.mccon_err.print_header = true <;>
    by_cases h2 : g.mccon_err.t = none <;>
      simp [h1, h2]

/-- `MCConOut.write` appends exactly its submitted text (if any) to the
stdout-sink log sequence, when a log handle is present. -/
theorem MCConOut.write_outLogSeq (t? : Option String) (g : G)
    (hlog : g.mccon_out.log = true) :
    outLogSeq (MCConOut.write t? g) = outLogSeq g ++ t?.toList := by
  simp only [MCConOut.write]
  by_cases ha : g.mccon_out.allowed = true
  · cases t? <;>
      (split <;> (try split) <;>
        simp_all [outLogSeq, drainOut_spec,
          MCConErr.write_buffer_outside,
          List.filterMap_append, List.filterMap_map, Function.comp_def])
  · cases t? <;> simp [ha, outLogSeq, List.filterMap_append]

/-- `MCConOut.write` never changes whether the stdout sink has a log handle. -/
theorem MCConOut.write_log (t? : Option String) (g : G) :
    (MCConOut.write t? g).mccon_out.log = g.mccon_out.log := by
  simp only [MCConOut.write]
  cases t? <;>
    (split <;> (try split) <;>
      simp_all [drainOut_spec, MCConErr.write_buffer_outside])

/-- One operation appends exactly its submitted stdout text (if any) to the
stdout-sink log sequence. -/
theorem step_outLogSeq (op : Op) (g : G) (hlog : g.mccon_out.log = true) :
    outLogSeq (step op g) = outLogSeq g ++ outSubmitted [op] := by
  cases op with
  | wout t =>
      cases t with
      | none =>
          simpa [outSubmitted, step] using MCConOut.write_outLogSeq none g hlog
      | some s =>
          simpa [outSubmitted, step] using
            MCConOut.write_outLogSeq (some s) g hlog
  | werr t => simp [step, outLogSeq, MCConErr.write_eq, outSubmitted]
  | wbuf b =>
      have h := MCConErr.write_buffer_outside b g
      simp [step, outLogSeq, h.1, h.2.1, outSubmitted]
  | setUserMode b => simp [step, outLogSeq, outSubmitted]
  | setOutUser b => simp [step, outLogSeq, outSubmitted]
  | setOutWarn b => simp [step, outLogSeq, outSubmitted]
  | setOutError b => simp [step, outLogSeq, outSubmitted]
  | setOutFileOnly b => simp [step, outLogSeq, outSubmitted]
  | setErrUser b => simp [step, outLogSeq, outSubmitted]
  | setErrFileOnly b => simp [step, outLogSeq, outSubmitted]

/-- No operation changes whether the stdout sink has a log handle. -/
theorem step_outlog (op : Op) (g : G) :
    (step op g).mccon_out.log = g.mccon_out.log := by
  cases op <;>
    simp [step, MCConOut.write_log, MCConErr.write_eq,
      (MCConErr.write_buffer_outside _ _).2.2.1]

/-- The stdout texts submitted by a history decompose head-first. -/
theorem outSubmitted_cons (op : Op) (ops : List Op) :
    outSubmitted (op :: ops) = outSubmitted [op] ++ outSubmitted ops := by
  cases op with
  | wout t => cases t <;> simp [outSubmitted]
  | werr t => simp [outSubmitted]
  | wbuf b => simp [outSubmitted]
  | setUserMode b => simp [outSubmitted]
  | setOutUser b => simp [outSubmitted]
  | setOutWarn b => simp [outSubmitted]
  | setOutError b => simp [outSubmitted]
  | setOutFileOnly b => simp [outSubmitted]
  | setErrUser b => simp [outSubmitted]
  | setErrFileOnly b => simp [outSubmitted]

/-- Over any history of operations, the stdout-sink log sequence grows by
exactly the submitted stdout texts, in submission order. -/
theorem run_outLogSeq (ops : List Op) (g : G) (hlog : g.mccon_out.log = true) :
    outLogSeq (run ops g) = outLogSeq g ++ outSubmitted ops := by
  induction ops generalizing g with
  | nil => simp [run, outSubmitted]
  | cons op ops ih =>
      have h1 : run (op :: ops) g = run ops (step op g) := rfl
      rw [h1, ih (step op g) (by rw [step_outlog, hlog]),
        step_outLogSeq op g hlog, outSubmitted_cons op ops, List.append_assoc]

/-- Folding stderr writes over a non-empty queue appends the texts in order
(no header is synthesised) and touches nothing but the queue and the timer. -/
theorem foldErr_eq (ts : List String) (g : G) (h : g.mccon_err.queue ≠ []) :
    ts.foldl (fun h t => MCConErr.write t h) g =
      {g with mccon_err := {g.mccon_err with
        queue := g.mccon_err.queue ++ ts,
        t := if ts = [] then g.mccon_err.t
             else if g.mccon_err.t = none then some false
             else g.mccon_err.t}} := by
  induction ts generalizing g with
  | nil => simp
  | cons t rest ih =>
      rw [List.foldl_cons, MCConErr.write_eq t g]
      rw [ih _ (by simp [h])]
      by_cases ht : g.mccon_err.t = none <;> simp [h, ht]

/-- Folding stderr writes from any state: the stderr-sink log sequence grows
by the submitted texts in order, preceded by one synthesised header exactly
when the queue was empty and headers are enabled. -/
theorem foldErr_errLogSeq (ts : List String) (g : G) :
    errLogSeq (ts.foldl (fun h t => MCConErr.write t h) g) =
      errLogSeq g ++
        (if ts ≠ [] ∧ g.mccon_err.queue = [] ∧ g.mccon_err.print_header = true
         then synthHeader g :: ts else ts) := by
  cases ts with
  | nil => simp
  | cons t rest =>
      rw [List.foldl_cons, MCConErr.write_eq t g]
      by_cases hq : g.mccon_err.queue = [] ∧ g.mccon_err.print_header = true
      · rw [foldErr_eq _ _ (by simp [hq])]
        simp [errLogSeq, hq, hq.1]
      · rw [foldErr_eq _ _ (by
          rcases Classical.em
              (g.mccon_err.queue = [] ∧ g.mccon_err.print_header = true) with
            hp | hp <;> simp [hp])]
        simp [errLogSeq, hq]

/-- `write_buffer` appends to the stderr-sink log sequence exactly the
trailing line terminator of a flushed, screen-visible block (and nothing in
any other case), when a log handle is present. -/
theorem write_buffer_errLogSeq (b : Bool) (g : G)
    (hlog : g.mccon_err.log = true) :
    errLogSeq (MCConErr.write_buffer b g) =
      errLogSeq g ++
        (if g.mccon_err.queue ≠ [] ∧ (b = true ∨ g.mccon_out.last = some '\n')
            ∧ errVisible g = true
         then ["\n"] else []) := by
  simp only [MCConErr.write_buffer]
  by_cases hq : g.mccon_err.queue = []
  · simp [hq, errLogSeq]
  · by_cases hc : b = false ∧ ¬ g.mccon_out.last = some '\n'
    · have hnor : ¬ (b = true ∨ g.mccon_out.last = some '\n') := by
        rcases hc with ⟨hb, hl⟩
        rintro (h1 | h2)
        · rw [hb] at h1; cases h1
        · exact hl h2
      simp [hq, hc, errLogSeq, hnor]
    · have hbc : b = true ∨ g.mccon_out.last = some '\n' := by
        rcases not_and_or.mp hc with h1 | h2
        · left; cases b
          · exact absurd rfl h1
          · rfl
        · right; exact not_not.mp h2
      by_cases hv : (!g.mccon_err.file_only &&
          ((g.mccon_err.user && g.user_mode) || !g.user_mode)) = true <;>
        simp [hq, hc, hbc, hv, errLogSeq, errVisible, drainErr_spec,
          hlog, List.filterMap_append]

/-- One `MCConOut.write` from an idle state (allowed, both queues empty):
the device receives the formatted text exactly when the record is not
file-only and passes the user-mode gate; the log receives the raw text
exactly when a handle is present; `user_mode` is untouched and the queue is
drained. -/
theorem MCConOut.write_single (g : G) (t : String)
    (hal : g.mccon_out.allowed = true) (hq : g.mccon_out.queue = [])
    (heq : g.mccon_err.queue = []) :
    (MCConOut.write (some t) g).outScreen = g.outScreen ++
      (if (!g.mccon_out.file_only &&
          ((g.mccon_out.user && g.user_mode) || !g.user_mode)) = true
       then [MCConOut.process_text g t] else []) ∧
    (MCConOut.write (some t) g).logw = g.logw ++
      (if g.mccon_out.log = true then [LogEv.out t] else []) ∧
    (MCConOut.write (some t) g).user_mode = g.user_mode ∧
    (MCConOut.write (some t) g).mccon_out.queue = [] := by
  simp only [MCConOut.write, hq]
  split <;> (try split) <;>
    (simp_all [drainOut_spec, MCConErr.write_buffer_empty,
      List.filter_cons, heq] <;>
     try (split <;> simp))

/-! ### The claims -/

/-- C1: the spec's Scenario A says `init` with colour disabled and no log
path completes normally and a plain write of `"hello\n"` reaches the device
verbatim with no log write.  The write behaves as claimed on such a sink
state, but `init(colour=False, log=None)` itself raises `UnboundLocalError`,
because `log_file` is a function-local name assigned only in the
`if log is not None:` branch (there is no `global log_file` declaration). -/
theorem c1_scenario_a :
    init false none "mccon" true true "T" = .error .unboundLocalError ∧
    (MCConOut.write (some "hello\n") gA).outScreen = ["hello\n"] ∧
    (MCConOut.write (some "hello\n") gA).logw = [] :=
  ⟨rfl, by rfl, by rfl⟩

/-- C2: per-sink log completeness.  (1) Over any history of operations, the
stdout-sink log sequence (logged texts plus pending queue) grows by exactly
the submitted stdout texts in submission order, independent of all
visibility gating in the history.  (2) Any burst of stderr writes appends
exactly the submitted fragments in order (preceded by one synthesised header
when the queue was empty and headers are enabled).  (3) Flushing the stderr
queue only appends the block's trailing line terminator, never dropping or
duplicating a fragment. -/
theorem c2_log_completeness :
    (∀ (g : G) (ops : List Op), g.mccon_out.log = true →
       outLogSeq (run ops g) = outLogSeq g ++ outSubmitted ops) ∧
    (∀ (g : G) (ts : List String), g.mccon_err.log = true →
       errLogSeq (ts.foldl (fun h t => MCConErr.write t h) g) =
         errLogSeq g ++
           (if ts ≠ [] ∧ g.mccon_err.queue = [] ∧
               g.mccon_err.print_header = true
            then synthHeader g :: ts else ts)) ∧
    (∀ (b : Bool) (g : G), g.mccon_err.log = true →
       errLogSeq (MCConErr.write_buffer b g) =
         errLogSeq g ++
           (if g.mccon_err.queue ≠ [] ∧
               (b = true ∨ g.mccon_out.last = some '\n') ∧
               errVisible g = true
            then ["\n"] else [])) :=
  ⟨fun g ops h => run_outLogSeq ops g h,
   fun g ts _ => foldErr_errLogSeq ts g,
   fun b g h => write_buffer_errLogSeq b g h⟩

/-- Witness for C2 at concrete inputs. -/
theorem c2_log_completeness_witness :
    gLog.mccon_out.log = true ∧
    outLogSeq (run [Op.wout (some "a"), Op.setUserMode true,
        Op.wout (some "b\n"), Op.werr "e", Op.wbuf true] gLog) =
      outLogSeq gLog ++ outSubmitted [Op.wout (some "a"), Op.setUserMode true,
        Op.wout (some "b\n"), Op.werr "e", Op.wbuf true] ∧
    errLogSeq (["e1", "e2\n"].foldl (fun h t => MCConErr.write t h) gLog) =
      errLogSeq gLog ++
        (if ["e1", "e2\n"] ≠ [] ∧ gLog.mccon_err.queue = [] ∧
            gLog.mccon_err.print_header = true
         then synthHeader gLog :: ["e1", "e2\n"] else ["e1", "e2\n"]) ∧
    errLogSeq (MCConErr.write_buffer true
        {gLog with mccon_err := {gLog.mccon_err with queue := ["e"]}}) =
      errLogSeq {gLog with mccon_err := {gLog.mccon_err with queue := ["e"]}} ++
        (if ({gLog with mccon_err := {gLog.mccon_err with queue := ["e"]}} :
              G).mccon_err.queue ≠ [] ∧
            (true = true ∨
              ({gLog with mccon_err := {gLog.mccon_err with queue := ["e"]}} :
                G).mccon_out.last = some '\n') ∧
            errVisible {gLog with mccon_err :=
              {gLog.mccon_err with queue := ["e"]}} = true
         then ["\n"] else []) :=
  ⟨rfl,
   c2_log_completeness.1 gLog _ rfl,
   c2_log_completeness.2.1 gLog _ rfl,
   c2_log_completeness.2.2 true _ rfl⟩

/-- Stdout sink with `allowed = false` (stderr flush in progress). -/
def gNA : G :=
  {gLog with mccon_out := {gLog.mccon_out with allowed := false}}

/-- `gLog` with one pending stderr fragment. -/
def gQE : G :=
  {gLog with mccon_err := {gLog.mccon_err with queue := ["e"]}}

/-- `gLog` in user mode (and the sink's `user` flag clear). -/
def gUM : G := {gLog with user_mode := true}

/-- `gLog` with the stdout sink in file-only mode. -/
def gFO : G :=
  {gLog with mccon_out := {gLog.mccon_out with file_only := true}}

/-- C3: with `user_mode` on and the sink's `user` flag clear, a write reaches
the log (when configured) but not the device; `file_only` suppresses the
device write the same way, without changing `user_mode` or the log write. -/
theorem c3_screen_log_decoupling (g : G) (t : String)
    (hal : g.mccon_out.allowed = true) (hq : g.mccon_out.queue = [])
    (heq : g.mccon_err.queue = []) :
    (g.user_mode = true → g.mccon_out.user = false →
       (MCConOut.write (some t) g).outScreen = g.outScreen ∧
       (g.mccon_out.log = true →
         (MCConOut.write (some t) g).logw = g.logw ++ [LogEv.out t]) ∧
       (MCConOut.write (some t) g).user_mode = g.user_mode) ∧
    (g.mccon_out.file_only = true →
       (MCConOut.write (some t) g).outScreen = g.outScreen ∧
       (g.mccon_out.log = true →
         (MCConOut.write (some t) g).logw = g.logw ++ [LogEv.out t]) ∧
       (MCConOut.write (some t) g).user_mode = g.user_mode) := by
  obtain ⟨hscr, hlg, hum, hqr⟩ := MCConOut.write_single g t hal hq heq
  constructor
  · intro h1 h2
    refine ⟨?_, fun hl => ?_, hum⟩
    · rw [hscr]; simp [h1, h2]
    · rw [hlg]; simp [hl]
  · intro h1
    refine ⟨?_, fun hl => ?_, hum⟩
    · rw [hscr]; simp [h1]
    · rw [hlg]; simp [hl]

/-- Witness for C3 at concrete inputs. -/
theorem c3_screen_log_decoupling_witness :
    (MCConOut.write (some "background\n") gUM).outScreen = [] ∧
    (MCConOut.write (some "background\n") gUM).logw =
      [LogEv.out "background\n"] ∧
    (MCConOut.write (some "fo\n") gFO).outScreen = [] ∧
    (MCConOut.write (some "fo\n") gFO).user_mode = false := by
  have h1 := c3_screen_log_decoupling gUM "background\n" rfl rfl rfl
  have h2 := c3_screen_log_decoupling gFO "fo\n" rfl rfl rfl
  exact ⟨(h1.1 rfl rfl).1, (h1.1 rfl rfl).2.1 rfl, (h2.2 rfl).1,
    (h2.2 rfl).2.2⟩

/-- C5: while the stderr flush owns the screen (`allowed = false`), a stdout
write only enqueues its record — the state changes in no other way, so no
device or log write happens; a forced (or line-boundary) `write_buffer` on a
non-empty queue always ends with `allowed = true`; and a write with
`allowed = true` drains the queue completely. -/
theorem c5_mutual_exclusion :
    (∀ (g : G) (t : String), g.mccon_out.allowed = false →
       MCConOut.write (some t) g =
         {g with mccon_out :=
           {g.mccon_out with queue := g.mccon_out.queue ++ [mkOutRec g t]}}) ∧
    (∀ (b : Bool) (g : G), g.mccon_err.queue ≠ [] →
       (b = true ∨ g.mccon_out.last = some '\n') →
       (MCConErr.write_buffer b g).mccon_out.allowed = true) ∧
    (∀ (g : G) (t : String), g.mccon_out.allowed = true →
       (MCConOut.write (some t) g).mccon_out.queue = []) := by
  refine ⟨fun g t h => ?_, fun b g hne hbc => ?_, fun g t h => ?_⟩
  · simp [MCConOut.write, h]
  · have hc : ¬ (b = false ∧ ¬ g.mccon_out.last = some '\n') := by
      rcases hbc with h1 | h2
      · rintro ⟨hb, _⟩; rw [h1] at hb; cases hb
      · rintro ⟨_, hl⟩; exact hl h2
    simp only [MCConErr.write_buffer]
    simp [hne, hc, MCConErr.drain_outside]
  · simp only [MCConOut.write]
    split <;> (try split) <;>
      simp_all [drainOut_spec, MCConErr.write_buffer_outside]

/-- Witness for C5 at concrete inputs. -/
theorem c5_mutual_exclusion_witness :
    MCConOut.write (some "x") gNA =
      {gNA with mccon_out :=
        {gNA.mccon_out with queue := gNA.mccon_out.queue ++ [mkOutRec gNA "x"]}} ∧
    (MCConErr.write_buffer true gQE).mccon_out.allowed = true ∧
    (MCConOut.write (some "x") gLog).mccon_out.queue = [] :=
  ⟨c5_mutual_exclusion.1 gNA "x" rfl,
   c5_mutual_exclusion.2.1 true gQE (by decide) (Or.inl rfl),
   c5_mutual_exclusion.2.2 gLog "x" rfl⟩

/-- C6: when the flush loop's bounded-wait dequeue times out (quiescence),
the block is closed without an external trigger: when the block is
screen-visible the trailing line terminator goes to the log and the device;
the loop stops (queue drained, timer cleared) and `allowed` is restored to
`true`.  When the block is not screen-visible, the fragments are still
logged but no trailing terminator is emitted anywhere. -/
theorem c6_quiescence_closure (g : G) (b : Bool)
    (hne : g.mccon_err.queue ≠ [])
    (hforce : b = true ∨ g.mccon_out.last = some '\n')
    (hlog : g.mccon_err.log = true) :
    (MCConErr.write_buffer b g).mccon_out.allowed = true ∧
    (MCConErr.write_buffer b g).mccon_err.t = none ∧
    (MCConErr.write_buffer b g).mccon_err.queue = [] ∧
    (errVisible g = true →
       (MCConErr.write_buffer b g).logw =
         g.logw ++ g.mccon_err.queue.map LogEv.err ++ [LogEv.err "\n"] ∧
       (MCConErr.write_buffer b g).errScreen =
         g.errScreen ++ g.mccon_err.queue.map
           (fun s => ScreenEv.text (MCConErr.process_text g s)) ++
           [ScreenEv.text "\n"]) ∧
    (errVisible g = false →
       (MCConErr.write_buffer b g).logw =
         g.logw ++ g.mccon_err.queue.map LogEv.err ∧
       (MCConErr.write_buffer b g).errScreen = g.errScreen) := by
  simp only [MCConErr.write_buffer]
  cases b with
  | true =>
      cases hfo : g.mccon_err.file_only <;> cases hu : g.mccon_err.user <;>
        cases hum : g.user_mode <;>
        simp_all [hne, drainErr_spec, errVisible,
          MCConErr.process_text]
  | false =>
      rcases hforce with h1 | h2
      · cases h1
      · cases hfo : g.mccon_err.file_only <;> cases hu : g.mccon_err.user <;>
          cases hum : g.user_mode <;>
          simp_all [hne, h2, drainErr_spec, errVisible,
            MCConErr.process_text]

/-- Witness for C6 at a concrete input. -/
theorem c6_quiescence_closure_witness :
    (MCConErr.write_buffer true gQE).mccon_out.allowed = true ∧
    (MCConErr.write_buffer true gQE).mccon_err.t = none ∧
    (MCConErr.write_buffer true gQE).mccon_err.queue = [] ∧
    (MCConErr.write_buffer true gQE).logw =
      gQE.logw ++ gQE.mccon_err.queue.map LogEv.err ++ [LogEv.err "\n"] := by
  have h := c6_quiescence_closure gQE true (by decide) (Or.inl rfl) rfl
  exact ⟨h.1, h.2.1, h.2.2.1, (h.2.2.2.1 rfl).1⟩

/-- C7: N stderr writes landing while the queue stays non-empty, with headers
enabled, enqueue exactly one synthesised header, before the first fragment;
flushing then puts on the stderr device exactly the processed header followed
by the N processed fragments and the trailing terminator, with the stdout
device untouched throughout. -/
theorem c7_batch_coherence (g : G) (ts : List String)
    (hqe : g.mccon_err.queue = []) (hph : g.mccon_err.print_header = true)
    (hts : ts ≠ []) (hlog : g.mccon_err.log = true)
    (hv : errVisible g = true) :
    (ts.foldl (fun h t => MCConErr.write t h) g).mccon_err.queue =
      synthHeader g :: ts ∧
    (ts.foldl (fun h t => MCConErr.write t h) g).outScreen = g.outScreen ∧
    (ts.foldl (fun h t => MCConErr.write t h) g).errScreen = g.errScreen ∧
    (MCConErr.write_buffer true
        (ts.foldl (fun h t => MCConErr.write t h) g)).errScreen =
      g.errScreen ++ (synthHeader g :: ts).map
        (fun s => ScreenEv.text (MCConErr.process_text g s)) ++
        [ScreenEv.text "\n"] ∧
    (MCConErr.write_buffer true
        (ts.foldl (fun h t => MCConErr.write t h) g)).outScreen =
      g.outScreen ∧
    (MCConErr.write_buffer true
        (ts.foldl (fun h t => MCConErr.write t h) g)).logw =
      g.logw ++ (synthHeader g :: ts).map LogEv.err ++ [LogEv.err "\n"] := by
  rcases ts with _ | ⟨t, rest⟩
  · exact absurd rfl hts
  rw [List.foldl_cons, MCConErr.write_eq t g,
    foldErr_eq rest _ (by simp [hqe, hph])]
  by_cases hv' : (!g.mccon_err.file_only &&
      ((g.mccon_err.user && g.user_mode) || !g.user_mode)) = true <;>
    simp_all [hqe, hph, MCConErr.write_buffer, drainErr_spec,
      errVisible, MCConErr.process_text]

/-- Witness for C7 at a concrete input. -/
theorem c7_batch_coherence_witness :
    (["err1", "err2\n"].foldl (fun h t => MCConErr.write t h) gLog).mccon_err.queue
      = synthHeader gLog :: ["err1", "err2\n"] ∧
    (MCConErr.write_buffer true
        (["err1", "err2\n"].foldl (fun h t => MCConErr.write t h) gLog)).errScreen =
      gLog.errScreen ++ (synthHeader gLog :: ["err1", "err2\n"]).map
        (fun s => ScreenEv.text (MCConErr.process_text gLog s)) ++
        [ScreenEv.text "\n"] ∧
    (MCConErr.write_buffer true
        (["err1", "err2\n"].foldl (fun h t => MCConErr.write t h) gLog)).outScreen
      = [] := by
  have h := c7_batch_coherence gLog ["err1", "err2\n"] rfl rfl (by decide)
    rfl rfl
  exact ⟨h.1, h.2.2.2.1, h.2.2.2.2.1⟩

/-- C8: the spec says `close()` flushes and closes both sinks and then closes
the log file handle that `init` opened.  In the code the module-global
`log_file` is never assigned by `init` (which only binds a function-local of
the same name), so after a successful `init` with a log path the global is
still unset and `close()` never closes the handle it opened. -/
theorem c8_close_never_closes_log :
    (init false (some "app.log") "mccon" true true "T").map
      (fun g => (g.logOpened, g.glob_log_file)) = .ok (true, false) ∧
    ((init false (some "app.log") "mccon" true true "T").bind close).map
      (fun g => (g.logOpened, g.logClosed)) = .ok (true, false) :=
  ⟨rfl, rfl⟩

/-- C9: the spec says each sink's `flush()` is a harmless no-op when no log
file is configured.  `MCConOut.flush` is guarded and indeed never raises, but
`MCConErr.flush` calls `self.log.flush()` unguarded and raises
`AttributeError` whenever no log handle is present, so teardown without a
stderr log crashes. -/
theorem c9_flush_asymmetry :
    (∀ g : G, MCConOut.flush g = .ok g) ∧
    (∀ g : G, g.mccon_err.log = false →
       MCConErr.flush g = .error .attributeError) :=
  ⟨MCConOut.flush_eq, fun _ h => MCConErr.flush_nolog h⟩

/-- Witness for C9 at a concrete input. -/
theorem c9_flush_asymmetry_witness :
    MCConOut.flush gA = .ok gA ∧ gA.mccon_err.log = false ∧
    MCConErr.flush gA = .error .attributeError :=
  ⟨c9_flush_asymmetry.1 gA, rfl, c9_flush_asymmetry.2 gA rfl⟩

/-- C10: writing `None` never enqueues a record and writes nothing for it:
with `allowed = false` the state is completely unchanged; with
`allowed = true` it only drains the previously deferred records — the queue
empties, the device receives exactly the printable pending records and the
log exactly the pending raw texts (when a handle is present). -/
theorem c10_write_none (g : G) :
    (g.mccon_out.allowed = false → MCConOut.write none g = g) ∧
    (g.mccon_out.allowed = true →
       (MCConOut.write none g).mccon_out.queue = [] ∧
       (MCConOut.write none g).outScreen = g.outScreen ++
         (g.mccon_out.queue.filter (fun r => !r.file_only && r.prnt)).map
           (fun r => r.form) ∧
       (g.mccon_err.queue = [] →
         (MCConOut.write none g).logw = g.logw ++
           (if g.mccon_out.log = true then
             g.mccon_out.queue.map (fun r => LogEv.out r.raw) else []))) := by
  constructor
  · intro h; simp [MCConOut.write, h]
  · intro h
    refine ⟨?_, ?_, fun heq => ?_⟩ <;>
      · simp only [MCConOut.write]
        split <;> (try split) <;>
          simp_all [drainOut_spec, MCConErr.write_buffer_outside,
            MCConErr.write_buffer_empty]

/-- Witness for C10 at concrete inputs. -/
theorem c10_write_none_witness :
    MCConOut.write none gNA = gNA ∧
    (MCConOut.write none gLog).mccon_out.queue = [] ∧
    (MCConOut.write none gLog).logw = gLog.logw ++
      (if gLog.mccon_out.log = true then
        gLog.mccon_out.queue.map (fun r => LogEv.out r.raw) else []) :=
  ⟨(c10_write_none gNA).1 rfl, ((c10_write_none gLog).2 rfl).1,
   ((c10_write_none gLog).2 rfl).2.2 rfl⟩

/-- C4 counterexample: the claim says every scoped switch restores the
guarded flag to its value from immediately before entry, for every prior
value.  Take a state in which `mccon_out.user` is already `true` (e.g. inside
an outer `user()` scope) and run `user()` with a body that returns normally:
afterwards the flag is `false`, not the prior `true`. -/
theorem c4_counterexample :
    ¬ ((user (fun s => (s, none))
          {gA with mccon_out := {gA.mccon_out with user := true}}).1.mccon_out.user =
        ({gA with mccon_out := {gA.mccon_out with user := true}} : G).mccon_out.user) := by
  decide

/-- C4 amended: on normal exit each switch sets the guarded flag/field to a
fixed default — `False` for `user`, `user_err`, `warn`, `error`, `file_only`
and empty maps for `highlight`/`highmap` — rather than the captured prior
value (only `pre` restores the captured prior prefix); and when the scoped
body raises, the post-`yield` reset does not run at all: the result is
exactly what the body left (`@contextmanager` with no `try/finally`). -/
theorem c4_amended :
    (∀ (g : G) (body : Body),
       ((user body g).2 = none → (user body g).1.mccon_out.user = false) ∧
       ((user body g).2 ≠ none →
         user body g =
           body {g with mccon_out := {g.mccon_out with user := true}})) ∧
    (∀ (g : G) (body : Body),
       ((user_err body g).2 = none →
         (user_err body g).1.mccon_err.user = false) ∧
       ((user_err body g).2 ≠ none →
         user_err body g =
           body {g with mccon_err := {g.mccon_err with user := true}})) ∧
    (∀ (g : G) (body : Body),
       ((warn body g).2 = none → (warn body g).1.mccon_out.warn = false) ∧
       ((warn body g).2 ≠ none →
         warn body g =
           body {g with mccon_out := {g.mccon_out with warn := true}})) ∧
    (∀ (g : G) (body : Body),
       ((error body g).2 = none → (error body g).1.mccon_out.error = false) ∧
       ((error body g).2 ≠ none →
         error body g =
           body {g with mccon_out := {g.mccon_out with error := true}})) ∧
    (∀ (g : G) (body : Body),
       ((file_only body g).2 = none →
         (file_only body g).1.mccon_out.file_only = false) ∧
       ((file_only body g).2 ≠ none →
         file_only body g =
           body {g with mccon_out := {g.mccon_out with file_only := true}})) ∧
    (∀ (hw lw : List String) (g : G) (body : Body),
       ((highlight hw lw body g).2 = none →
         (highlight hw lw body g).1.mccon_out.high_words = [] ∧
         (highlight hw lw body g).1.mccon_out.low_words = []) ∧
       ((highlight hw lw body g).2 ≠ none →
         highlight hw lw body g =
           body {g with mccon_out := {g.mccon_out with
             high_words := hw.map (fun w => (w, none)),
             low_words := lw.map (fun w => (w, none))}})) ∧
    (∀ (hw lw : List (String × Option String)) (g : G) (body : Body),
       ((highmap hw lw body g).2 = none →
         (highmap hw lw body g).1.mccon_out.high_words = [] ∧
         (highmap hw lw body g).1.mccon_out.low_words = []) ∧
       ((highmap hw lw body g).2 ≠ none →
         highmap hw lw body g =
           body {g with mccon_out := {g.mccon_out with
             high_words := hw, low_words := lw}})) ∧
    (∀ (p : String) (g : G) (body : Body),
       ((pre p body g).2 = none → (pre p body g).1.pfx = g.pfx) ∧
       ((pre p body g).2 ≠ none → pre p body g = body {g with pfx := p})) := by
  refine ⟨fun g body => ?_, fun g body => ?_, fun g body => ?_,
    fun g body => ?_, fun g body => ?_, fun hw lw g body => ?_,
    fun hw lw g body => ?_, fun p g body => ?_⟩
  · rcases hb : body {g with mccon_out := {g.mccon_out with user := true}}
      with ⟨g', e?⟩
    cases e? <;> simp [user, hb]
  · rcases hb : body {g with mccon_err := {g.mccon_err with user := true}}
      with ⟨g', e?⟩
    cases e? <;> simp [user_err, hb]
  · rcases hb : body {g with mccon_out := {g.mccon_out with warn := true}}
      with ⟨g', e?⟩
    cases e? <;> simp [warn, hb]
  · rcases hb : body {g with mccon_out := {g.mccon_out with error := true}}
      with ⟨g', e?⟩
    cases e? <;> simp [error, hb]
  · rcases hb : body {g with mccon_out := {g.mccon_out with file_only := true}}
      with ⟨g', e?⟩
    cases e? <;> simp [file_only, hb]
  · rcases hb : body {g with mccon_out := {g.mccon_out with
        high_words := hw.map (fun w => (w, none)),
        low_words := lw.map (fun w => (w, none))}}
      with ⟨g', e?⟩
    cases e? <;> simp [highlight, hb]
  · rcases hb : body {g with mccon_out := {g.mccon_out with
        high_words := hw, low_words := lw}}
      with ⟨g', e?⟩
    cases e? <;> simp [highmap, hb]
  · rcases hb : body {g with pfx := p} with ⟨g', e?⟩
    cases e? <;> simp [pre, hb]

/-- Witness for C4's amended theorem at concrete inputs. -/
theorem c4_amended_witness :
    ((user (fun s => (s, none)) gA).2 = none ∧
      (user (fun s => (s, none)) gA).1.mccon_out.user = false) ∧
    ((user (fun s => (s, some PyErr.other)) gA).2 ≠ none ∧
      user (fun s => (s, some PyErr.other)) gA =
        (fun s => (s, some PyErr.other))
          {gA with mccon_out := {gA.mccon_out with user := true}}) ∧
    ((pre "job" (fun s => (s, none)) gA).2 = none ∧
      (pre "job" (fun s => (s, none)) gA).1.pfx = gA.pfx) :=
  ⟨⟨rfl, (c4_amended.1 gA (fun s => (s, none))).1 rfl⟩,
   ⟨by decide,
    (c4_amended.1 gA (fun s => (s, some PyErr.other))).2 (by decide)⟩,
   ⟨rfl, (c4_amended.2.2.2.2.2.2.2 "job" gA (fun s => (s, none))).1 rfl⟩⟩

end MCCon
